import Mathlib

/-!
Verification of the trade-safety core of the cross-market-state-fusion
repository: the risk-gating engine (src/helpers/risk_manager.py) and the
order-execution layer (src/helpers/polymarket_executor.py), shallowly
embedded in Lean 4.

Modelling conventions:
- Python floats are modelled as rationals.
- Clock reads (time.time() and datetime.now(timezone.utc)) are threaded
  as explicit parameters.  An Instant carries the timestamp in seconds
  (field t, used for ordering and timedelta arithmetic) and the UTC date
  as an integer ordinal (field day, used for the .date() comparison of
  the daily reset).
- Python dicts preserving insertion order are association lists with
  unique keys (assignment replaces in place, pop removes).
- The verbose printing is I/O only and is not modelled; the free-text
  detail string of a violation record is elided (no property reads it),
  each log entry keeps the timestamp and the violation kind.
- can_trade returns an Option: the value none models the TypeError the
  Python code raises when circuit_breaker_active is true while
  circuit_breaker_until is None (comparing a datetime against None);
  that state is unreachable through the public API, and the exception is
  raised before any mutation.
-/

namespace CrossMarket

/-- A moment in time: seconds since the epoch plus the UTC date ordinal. -/
structure Instant where
  t : ℚ
  day : ℤ
deriving DecidableEq, Repr

/-- Adding a timedelta of a given number of seconds (only the t field of
the result is ever consulted afterwards). -/
def Instant.addSecs (i : Instant) (s : ℚ) : Instant :=
  ⟨i.t + s, i.day⟩

/-- The RiskViolation enum of risk_manager.py. -/
inductive RiskViolation
  | positionSize
  | totalExposure
  | dailyLoss
  | maxDrawdown
  | consecutiveLosses
  | orderRate
  | singleMarketExposure
deriving DecidableEq, Repr

/-- The RiskLimits dataclass, with its default values. -/
structure RiskLimits where
  max_position_size : ℚ := 500
  max_total_exposure : ℚ := 2000
  max_single_market_exposure : ℚ := 1000
  max_daily_loss : ℚ := -1000
  max_drawdown_pct : ℚ := 3/10
  max_consecutive_losses : ℕ := 10
  max_orders_per_minute : ℕ := 30
  max_orders_per_hour : ℕ := 500
  emergency_stop_loss : ℚ := -2000
  enable_circuit_breaker : Bool := true
deriving DecidableEq, Repr

/-- The RiskState dataclass.  consecutive_losses and total_trades are
naturals: they start at 0 and are only incremented or reset to 0. -/
structure RiskState where
  session_pnl : ℚ := 0
  daily_pnl : ℚ := 0
  peak_equity : ℚ := 0
  current_equity : ℚ := 0
  open_positions : List (String × ℚ) := []
  total_exposure : ℚ := 0
  consecutive_losses : ℕ := 0
  last_trade_pnl : ℚ := 0
  total_trades : ℕ := 0
  orders_last_minute : List ℚ := []
  orders_last_hour : List ℚ := []
  circuit_breaker_active : Bool := false
  circuit_breaker_until : Option Instant := none
  last_daily_reset : Instant
deriving DecidableEq, Repr

/-- The mutable state owned by a RiskManager object: the RiskState plus
the violations log (timestamp and kind; the detail text is elided). -/
structure RMState where
  state : RiskState
  violations : List (Instant × RiskViolation)
deriving DecidableEq, Repr

/-- The state of a freshly constructed RiskManager(initial_equity). -/
def initRM (initial_equity : ℚ) (t0 : Instant) : RMState :=
  { state := { current_equity := initial_equity
               peak_equity := initial_equity
               last_daily_reset := t0 }
    violations := [] }

/-- Python dict assignment d[cid] = size: replace the value in place if
the key is present, otherwise append the new binding. -/
def setPos (ps : List (String × ℚ)) (cid : String) (size : ℚ) : List (String × ℚ) :=
  if ps.any (fun p => p.1 = cid) then
    ps.map (fun p => if p.1 = cid then (cid, size) else p)
  else
    ps ++ [(cid, size)]

/-- Python dict pop: remove the binding for the key. -/
def removePos (ps : List (String × ℚ)) (cid : String) : List (String × ℚ) :=
  ps.filter (fun p => p.1 ≠ cid)

/-- Python sum(open_positions.values()). -/
def sumPositions (ps : List (String × ℚ)) : ℚ :=
  (ps.map (fun p => p.2)).sum

/-- Python substring containment needle in hay. -/
def strContains (hay needle : String) : Bool :=
  hay.toList.tails.any (fun tl => needle.toList.isPrefixOf tl)

/-- The asset-exposure sum of can_trade: total of open positions whose
condition id contains the asset symbol, case-insensitively. -/
def assetExposure (ps : List (String × ℚ)) (asset : String) : ℚ :=
  ((ps.filter (fun p => strContains p.1.toUpper asset.toUpper)).map (fun p => p.2)).sum

/-- RiskManager._cleanup_order_timestamps, minute window: keep timestamps
strictly younger than 60 seconds. -/
def cleanupMinute (l : List ℚ) (now : ℚ) : List ℚ :=
  l.filter (fun ts => now - ts < 60)

/-- RiskManager._cleanup_order_timestamps, hour window: keep timestamps
strictly younger than 3600 seconds. -/
def cleanupHour (l : List ℚ) (now : ℚ) : List ℚ :=
  l.filter (fun ts => now - ts < 3600)

/-- RiskManager._record_violation: append a log entry (detail elided). -/
def recordViolation (m : RMState) (now : Instant) (v : RiskViolation) : RMState :=
  { m with violations := m.violations ++ [(now, v)] }

/-- The single-market-exposure guard of can_trade: Python first tests
the truthiness of asset (None and the empty string skip the check), and
only then compares the asset exposure plus the new size to the limit.
No side effect separates the two tests, so the conjunction is the exact
guard of the reject branch. -/
def assetBlock (L : RiskLimits) (s1 : RiskState) (size : ℚ) (asset : Option String) : Bool :=
  match asset with
  | some a =>
    decide (a ≠ "") && decide (assetExposure s1.open_positions a + size > L.max_single_market_exposure)
  | none => false

/-- The checks of can_trade after the circuit breaker, evaluated on the
state s1 left by the breaker check (the breaker may just have been
cleared in it).  Each early return of the Python body is one ite
branch. -/
def canTradeChecks (L : RiskLimits) (m : RMState) (s1 : RiskState) (now : Instant)
    (size : ℚ) (asset : Option String) : (Bool × Option RiskViolation) × RMState :=
  -- Check position size
  if size > L.max_position_size then
    ((false, some RiskViolation.positionSize),
      recordViolation { m with state := s1 } now RiskViolation.positionSize)
  -- Check total exposure
  else if s1.total_exposure + size > L.max_total_exposure then
    ((false, some RiskViolation.totalExposure),
      recordViolation { m with state := s1 } now RiskViolation.totalExposure)
  -- Check single market exposure (if asset provided)
  else if assetBlock L s1 size asset then
    ((false, some RiskViolation.singleMarketExposure),
      recordViolation { m with state := s1 } now RiskViolation.singleMarketExposure)
  -- Check daily loss limit
  else if s1.daily_pnl ≤ L.max_daily_loss then
    ((false, some RiskViolation.dailyLoss),
      recordViolation { m with state := s1 } now RiskViolation.dailyLoss)
  -- Check emergency stop (reuses the DAILY_LOSS kind)
  else if s1.session_pnl ≤ L.emergency_stop_loss then
    ((false, some RiskViolation.dailyLoss),
      recordViolation { m with state := s1 } now RiskViolation.dailyLoss)
  -- Check drawdown
  else if s1.peak_equity > 0 ∧
      (s1.current_equity - s1.peak_equity) / s1.peak_equity < -L.max_drawdown_pct then
    ((false, some RiskViolation.maxDrawdown),
      recordViolation { m with state := s1 } now RiskViolation.maxDrawdown)
  -- Check order rate (the cleanup mutates the two queues in place)
  else
    let s2 := { s1 with
      orders_last_minute := cleanupMinute s1.orders_last_minute now.t
      orders_last_hour := cleanupHour s1.orders_last_hour now.t }
    if s2.orders_last_minute.length ≥ L.max_orders_per_minute then
      ((false, some RiskViolation.orderRate),
        recordViolation { m with state := s2 } now RiskViolation.orderRate)
    else if s2.orders_last_hour.length ≥ L.max_orders_per_hour then
      ((false, some RiskViolation.orderRate),
        recordViolation { m with state := s2 } now RiskViolation.orderRate)
    else
      ((true, none), { m with state := s2 })

/-- RiskManager.can_trade.  Returns none exactly on the Python TypeError
path (breaker active with a None deadline, raised before any mutation);
otherwise some ((allowed, violation), new state). -/
def canTrade (L : RiskLimits) (m : RMState) (now : Instant)
    (cid : String) (size : ℚ) (asset : Option String) :
    Option ((Bool × Option RiskViolation) × RMState) :=
  -- Check circuit breaker
  if m.state.circuit_breaker_active then
    match m.state.circuit_breaker_until with
    | none => none
    | some d =>
      if now.t < d.t then
        some ((false, some RiskViolation.consecutiveLosses), m)
      else
        -- Reset circuit breaker (the deadline has passed) and continue
        some (canTradeChecks L m
          { m.state with circuit_breaker_active := false, circuit_breaker_until := none }
          now size asset)
  else
    some (canTradeChecks L m m.state now size asset)

/-- RiskManager.record_order: append now to both rate windows. -/
def recordOrder (m : RMState) (now : ℚ) : RMState :=
  { m with state := { m.state with
      orders_last_minute := m.state.orders_last_minute ++ [now]
      orders_last_hour := m.state.orders_last_hour ++ [now] } }

/-- RiskManager.record_position_open. -/
def recordPositionOpen (m : RMState) (cid : String) (size : ℚ) : RMState :=
  let ps := setPos m.state.open_positions cid size
  { m with state := { m.state with
      open_positions := ps
      total_exposure := sumPositions ps } }

/-- RiskManager.record_position_close: a no-op when the id is absent. -/
def recordPositionClose (m : RMState) (cid : String) : RMState :=
  if m.state.open_positions.any (fun p => p.1 = cid) then
    let ps := removePos m.state.open_positions cid
    { m with state := { m.state with
        open_positions := ps
        total_exposure := sumPositions ps } }
  else
    m

/-- RiskManager._check_daily_reset: zero daily_pnl and advance the stored
date when the UTC date has advanced past the stored one. -/
def checkDailyReset (s : RiskState) (now : Instant) : RiskState :=
  if now.day > s.last_daily_reset.day then
    { s with daily_pnl := 0, last_daily_reset := now }
  else
    s

/-- The first block of record_trade: apply the realized PnL to the
session, daily and equity accumulators and count the trade. -/
def rtApplyPnl (s : RiskState) (pnl : ℚ) : RiskState :=
  { s with
    session_pnl := s.session_pnl + pnl
    daily_pnl := s.daily_pnl + pnl
    current_equity := s.current_equity + pnl
    total_trades := s.total_trades + 1 }

/-- The peak-equity update block of record_trade. -/
def rtPeak (s : RiskState) : RiskState :=
  if s.current_equity > s.peak_equity then
    { s with peak_equity := s.current_equity }
  else s

/-- The consecutive-losses block of record_trade, including the
_trigger_circuit_breaker call on reaching the threshold (the trigger
sets the active flag and a deadline 30 minutes from now). -/
def rtLosses (L : RiskLimits) (s : RiskState) (now : Instant) (pnl : ℚ) : RiskState :=
  if pnl < 0 then
    let s1 := { s with consecutive_losses := s.consecutive_losses + 1 }
    if L.enable_circuit_breaker ∧ s1.consecutive_losses ≥ L.max_consecutive_losses then
      { s1 with
        circuit_breaker_active := true
        circuit_breaker_until := some (now.addSecs (30 * 60)) }
    else s1
  else
    { s with consecutive_losses := 0 }

/-- RiskManager.record_trade: the blocks above in source order, then
last_trade_pnl, then the daily reset check. -/
def recordTrade (L : RiskLimits) (m : RMState) (now : Instant) (pnl : ℚ) : RMState :=
  let s := rtLosses L (rtPeak (rtApplyPnl m.state pnl)) now pnl
  { m with state := checkDailyReset { s with last_trade_pnl := pnl } now }

/-- RiskManager.reset_circuit_breaker. -/
def resetCircuitBreaker (m : RMState) : RMState :=
  { m with state := { m.state with
      circuit_breaker_active := false
      circuit_breaker_until := none
      consecutive_losses := 0 } }

/-- One public RiskManager operation with the clock values it reads. -/
inductive RiskOp
  | canTradeOp (now : Instant) (cid : String) (size : ℚ) (asset : Option String)
  | recordOrderOp (now : ℚ)
  | recordPositionOpenOp (cid : String) (size : ℚ)
  | recordPositionCloseOp (cid : String)
  | recordTradeOp (now : Instant) (pnl : ℚ)
  | resetCircuitBreakerOp

/-- Apply one operation.  On the can_trade TypeError path the exception
is raised before any mutation, so the state is unchanged. -/
def stepOp (L : RiskLimits) (m : RMState) : RiskOp → RMState
  | .canTradeOp now cid size asset =>
    match canTrade L m now cid size asset with
    | some (_, m2) => m2
    | none => m
  | .recordOrderOp now => recordOrder m now
  | .recordPositionOpenOp cid size => recordPositionOpen m cid size
  | .recordPositionCloseOp cid => recordPositionClose m cid
  | .recordTradeOp now pnl => recordTrade L m now pnl
  | .resetCircuitBreakerOp => resetCircuitBreaker m

/-- Apply a sequence of operations from left to right. -/
def runOps (L : RiskLimits) (m : RMState) (ops : List RiskOp) : RMState :=
  ops.foldl (stepOp L) m

/-- The exposure invariant of the data model. -/
def expoInv (s : RiskState) : Prop :=
  s.total_exposure = sumPositions s.open_positions

/-!
The order-execution layer (src/helpers/polymarket_executor.py).  The
venue is an oracle: the outcome of the POST /order submission, the
sequence of GET /order/{id} poll outcomes (each paired with the clock
value read at the top of the corresponding loop iteration), and the
outcome of the DELETE cancel call are explicit parameters.  Timestamps
are plain rationals here (no .date() is ever taken).
-/

/-- The Order dataclass of polymarket_executor.py.  The venue may omit
the orderID field of its acceptance response (result.get returns None),
so the id, which is also the key of the orders dict, is an Option. -/
structure Order where
  order_id : Option String
  token_id : String
  side : String
  price : ℚ
  size : ℚ
  status : String
  filled_size : ℚ
  avg_fill_price : Option ℚ
  created_at : ℚ
  filled_at : Option ℚ
  fees_paid : ℚ := 0
deriving DecidableEq, Repr

/-- The FillResult dataclass. -/
structure FillResult where
  success : Bool
  filled_size : ℚ
  avg_price : ℚ
  slippage : ℚ
  latency_ms : ℚ
  fees : ℚ
  order_id : Option String
  error : Option String := none
deriving DecidableEq, Repr

/-- The mutable state of a PolymarketExecutor: the orders dict and the
statistics counters. -/
structure ExecState where
  orders : List (Option String × Order) := []
  nonce_counter : ℕ := 0
  total_orders_placed : ℕ := 0
  total_fills : ℕ := 0
  total_cancellations : ℕ := 0
  total_slippage : ℚ := 0
deriving DecidableEq, Repr

/-- Outcome of the POST /order submission: an HTTP response (status
code, body text, parsed orderID field), or an exception raised anywhere
before acceptance (signing, transport, JSON decoding). -/
inductive SubmitOutcome
  | response (code : ℕ) (text : String) (orderId : Option String)
  | exn (msg : String)
deriving DecidableEq, Repr

/-- Outcome of one GET /order/{id} poll: a non-200 response, an
exception during the poll, or a parsed status body (status string,
size_matched with its 0 default, avg_fill_price when present). -/
inductive PollOutcome
  | httpError (code : ℕ)
  | exn (msg : String)
  | ok (status : String) (sizeMatched : ℚ) (avgFillPrice : Option ℚ)
deriving DecidableEq, Repr

/-- Python dict lookup self.orders.get(order_id): the value stored under
the key (keys are unique by construction). -/
def lookupOrder : List (Option String × Order) → Option String → Option Order
  | [], _ => none
  | p :: rest, oid => if p.1 = oid then some p.2 else lookupOrder rest oid

/-- Python dict assignment self.orders[order_id] = o. -/
def insertOrder (os : List (Option String × Order)) (oid : Option String) (o : Order) :
    List (Option String × Order) :=
  if os.any (fun p => p.1 = oid) then
    os.map (fun p => if p.1 = oid then (oid, o) else p)
  else
    os ++ [(oid, o)]

/-- In-place mutation of the record stored under a key. -/
def updOrder (os : List (Option String × Order)) (oid : Option String)
    (f : Order → Order) : List (Option String × Order) :=
  os.map (fun p => if p.1 = oid then (p.1, f p.2) else p)

/-- Python x or d on an Optional[float]: falls back on None and also on
the falsy 0.0. -/
def pyOr (x : Option ℚ) (d : ℚ) : ℚ :=
  match x with
  | none => d
  | some v => if v = 0 then d else v

/-- The timeout exit of _wait_for_fill: a best-effort cancel (cancelOk
is the venue outcome of the DELETE, false also covers an exception),
then a FillResult read back from the tracked order.  The value none
models the KeyError raised when the order id is not in the dict. -/
def timeoutExit (timeoutSec startTime tEnd : ℚ) (oid : Option String)
    (cancelOk : Bool) (es : ExecState) : Option (FillResult × ExecState × Bool) :=
  let es2 :=
    if cancelOk then
      { es with
        orders := updOrder es.orders oid (fun o => { o with status := "cancelled" })
        total_cancellations := es.total_cancellations + 1 }
    else es
  match lookupOrder es2.orders oid with
  | none => none
  | some o =>
    some ({ success := decide (o.filled_size > 0)
            filled_size := o.filled_size
            avg_price := pyOr o.avg_fill_price o.price
            slippage := 0
            latency_ms := (tEnd - startTime) * 1000
            fees := 0
            order_id := oid
            error := if o.filled_size = 0
              then some ("Timeout after " ++ toString timeoutSec ++ "s")
              else none },
          es2, true)

/-- PolymarketExecutor._wait_for_fill.  Each list entry is one loop
iteration: the clock value read by the while condition and the poll
outcome consumed when the condition holds.  An empty list, or a head
whose clock value is past the budget, is the loop exiting on its
condition (tEnd is the clock value of that final check in the empty
case).  The Bool of the result records that the cancel was issued. -/
def waitForFill (timeoutSec startTime : ℚ) (oid : Option String)
    (cancelOk : Bool) (tEnd : ℚ) (es : ExecState) :
    List (ℚ × PollOutcome) → Option (FillResult × ExecState × Bool)
  | [] => timeoutExit timeoutSec startTime tEnd oid cancelOk es
  | (t, p) :: rest =>
    if t - startTime < timeoutSec then
      match p with
      | .httpError _ => waitForFill timeoutSec startTime oid cancelOk tEnd es rest
      | .exn _ => waitForFill timeoutSec startTime oid cancelOk tEnd es rest
      | .ok st sz avg =>
        match lookupOrder es.orders oid with
        | none => none
        | some o =>
          -- order.filled_size / order.status updated before the check
          let es2 := { es with
            orders := updOrder es.orders oid
              (fun q => { q with filled_size := sz, status := st }) }
          if st = "filled" then
            let afp := match avg with
              | some a => a
              | none => o.price
            let slip := afp - o.price
            let es3 := { es2 with
              orders := updOrder es2.orders oid
                (fun q => { q with avg_fill_price := some afp, filled_at := some t })
              total_fills := es2.total_fills + 1
              total_slippage := es2.total_slippage + |slip| }
            some ({ success := true
                    filled_size := sz
                    avg_price := afp
                    slippage := slip
                    latency_ms := (t - startTime) * 1000
                    fees := 0
                    order_id := oid
                    error := none },
                  es3, false)
          else
            waitForFill timeoutSec startTime oid cancelOk tEnd es2 rest
    else
      timeoutExit timeoutSec startTime t oid cancelOk es

/-- PolymarketExecutor.place_limit_order.  The payload fields that only
feed the signed network request (quantized price/size, nonce, expiry,
addresses) are not modelled beyond the nonce counter increment; the
time_in_force and post_only flags only enter that payload.  startTime is
the clock value read on entry, submitTime the one read right after the
submission returns.  The Bool of the result records whether a cancel was
issued inside the fill wait. -/
def placeLimitOrder (es : ExecState) (token_id side : String) (price size : ℚ)
    (wait_for_fill : Bool) (timeout_sec : ℚ) (startTime submitTime : ℚ)
    (submit : SubmitOutcome) (polls : List (ℚ × PollOutcome))
    (cancelOk : Bool) (tEnd : ℚ) : FillResult × ExecState × Bool :=
  -- _get_nonce runs before submission, so the counter advances on every path
  let es1 := { es with nonce_counter := es.nonce_counter + 1 }
  match submit with
  | .exn msg =>
    ({ success := false
       filled_size := 0
       avg_price := 0
       slippage := 0
       latency_ms := (submitTime - startTime) * 1000
       fees := 0
       order_id := none
       error := some ("Exception placing order: " ++ msg) },
     es1, false)
  | .response code text oid =>
    if code ≠ 200 then
      ({ success := false
         filled_size := 0
         avg_price := 0
         slippage := 0
         latency_ms := (submitTime - startTime) * 1000
         fees := 0
         order_id := none
         error := some ("Order placement failed: " ++ toString code ++ " " ++ text) },
       es1, false)
    else
      let o : Order :=
        { order_id := oid
          token_id := token_id
          side := side
          price := price
          size := size
          status := "open"
          filled_size := 0
          avg_fill_price := none
          created_at := submitTime
          filled_at := none }
      let es2 := { es1 with
        orders := insertOrder es1.orders oid o
        total_orders_placed := es1.total_orders_placed + 1 }
      if wait_for_fill then
        match waitForFill timeout_sec startTime oid cancelOk tEnd es2 polls with
        | some r => r
        | none =>
          -- a KeyError inside the wait would be caught by the outer
          -- except of place_limit_order; unreachable here because the
          -- order was inserted before polling starts
          ({ success := false
             filled_size := 0
             avg_price := 0
             slippage := 0
             latency_ms := (tEnd - startTime) * 1000
             fees := 0
             order_id := none
             error := some "Exception placing order: KeyError" },
           es2, false)
      else
        ({ success := true
           filled_size := 0
           avg_price := price
           slippage := 0
           latency_ms := (submitTime - startTime) * 1000
           fees := 0
           order_id := oid },
         es2, false)

/-- Whether a poll outcome is a 200 response reporting status filled. -/
def isFilledOk : PollOutcome → Bool
  | .ok st _ _ => st = "filled"
  | _ => false

/-- The last size_matched reported by an in-budget 200 poll, starting
from a given tracked value: the size that had filled when the wait loop
times out. -/
def lastMatched (timeoutSec startTime : ℚ) :
    List (ℚ × PollOutcome) → ℚ → ℚ
  | [], acc => acc
  | (t, p) :: rest, acc =>
    if t - startTime < timeoutSec then
      match p with
      | .ok _ sz _ => lastMatched timeoutSec startTime rest sz
      | _ => lastMatched timeoutSec startTime rest acc
    else acc

/-!
Theorems.  Helper lemmas come first, then one theorem per claim.
-/

/-- The state left by the checks after the circuit breaker differs from
the state they were given at most in the two rate windows. -/
theorem canTradeChecks_state (L : RiskLimits) (m : RMState) (s1 : RiskState)
    (now : Instant) (size : ℚ) (asset : Option String) :
    ∃ qm qh, (canTradeChecks L m s1 now size asset).2.state
      = { s1 with orders_last_minute := qm, orders_last_hour := qh } := by
  unfold canTradeChecks recordViolation
  dsimp only
  repeat' split
  all_goals exact ⟨_, _, rfl⟩

/-- Fields of the risk state that a can_trade call never writes,
whatever its outcome: positions, exposure, PnL and equity, trade
counters and the daily-reset date. -/
theorem canTrade_some_frame {L : RiskLimits} {m : RMState} {now : Instant}
    {cid : String} {size : ℚ} {asset : Option String}
    {r : Bool × Option RiskViolation} {m' : RMState}
    (h : canTrade L m now cid size asset = some (r, m')) :
    m'.state.open_positions = m.state.open_positions ∧
    m'.state.total_exposure = m.state.total_exposure ∧
    m'.state.session_pnl = m.state.session_pnl ∧
    m'.state.daily_pnl = m.state.daily_pnl ∧
    m'.state.current_equity = m.state.current_equity ∧
    m'.state.peak_equity = m.state.peak_equity ∧
    m'.state.consecutive_losses = m.state.consecutive_losses ∧
    m'.state.last_trade_pnl = m.state.last_trade_pnl ∧
    m'.state.total_trades = m.state.total_trades ∧
    m'.state.last_daily_reset = m.state.last_daily_reset := by
  unfold canTrade at h
  split at h
  · split at h
    · exact absurd h (by simp)
    · split at h
      · simp only [Option.some.injEq, Prod.mk.injEq] at h
        obtain ⟨-, rfl⟩ := h
        simp
      · simp only [Option.some.injEq] at h
        obtain ⟨qm, qh, hs⟩ := canTradeChecks_state L m
          { m.state with circuit_breaker_active := false, circuit_breaker_until := none }
          now size asset
        rw [h] at hs
        dsimp only at hs
        rw [hs]
        simp
  · simp only [Option.some.injEq] at h
    obtain ⟨qm, qh, hs⟩ := canTradeChecks_state L m m.state now size asset
    rw [h] at hs
    dsimp only at hs
    rw [hs]
    simp

/-- record_trade never writes the open-position map, the exposure total
or the rate windows. -/
theorem recordTrade_frame (L : RiskLimits) (m : RMState) (now : Instant) (pnl : ℚ) :
    (recordTrade L m now pnl).state.open_positions = m.state.open_positions ∧
    (recordTrade L m now pnl).state.total_exposure = m.state.total_exposure ∧
    (recordTrade L m now pnl).state.orders_last_minute = m.state.orders_last_minute ∧
    (recordTrade L m now pnl).state.orders_last_hour = m.state.orders_last_hour ∧
    (recordTrade L m now pnl).violations = m.violations := by
  unfold recordTrade rtLosses rtPeak rtApplyPnl checkDailyReset
  dsimp only
  repeat' split
  all_goals simp

/-- Every RiskManager operation preserves the exposure invariant. -/
theorem stepOp_expoInv (L : RiskLimits) (m : RMState) (op : RiskOp)
    (h : expoInv m.state) : expoInv (stepOp L m op).state := by
  unfold expoInv at h ⊢
  cases op with
  | canTradeOp now cid size asset =>
    cases hc : canTrade L m now cid size asset with
    | none =>
      simp only [stepOp, hc]
      exact h
    | some r =>
      obtain ⟨res, m2⟩ := r
      obtain ⟨h1, h2, -⟩ := canTrade_some_frame hc
      simp only [stepOp, hc]
      rw [h1, h2]
      exact h
  | recordOrderOp now =>
    simp only [stepOp, recordOrder]
    exact h
  | recordPositionOpenOp cid size =>
    simp only [stepOp, recordPositionOpen]
  | recordPositionCloseOp cid =>
    simp only [stepOp, recordPositionClose]
    split <;> simp [h]
  | recordTradeOp now pnl =>
    obtain ⟨h1, h2, -⟩ := recordTrade_frame L m now pnl
    simp only [stepOp]
    rw [h1, h2]
    exact h
  | resetCircuitBreakerOp =>
    simp only [stepOp, resetCircuitBreaker]
    exact h

/-- The exposure invariant is preserved along any run. -/
theorem runOps_expoInv (L : RiskLimits) (ops : List RiskOp) :
    ∀ m : RMState, expoInv m.state → expoInv (runOps L m ops).state := by
  induction ops with
  | nil => intro m h; exact h
  | cons op rest ih =>
    intro m h
    exact ih (stepOp L m op) (stepOp_expoInv L m op h)

/-- C1: after every sequence of RiskManager operations starting from a
freshly initialized manager, total_exposure equals the sum of the values
of open_positions; in particular the equality holds exactly after every
record_position_open and record_position_close. -/
theorem c1_exposure_invariant (L : RiskLimits) (e : ℚ) (t0 : Instant)
    (ops : List RiskOp) : expoInv (runOps L (initRM e t0) ops).state := by
  apply runOps_expoInv
  unfold expoInv initRM sumPositions
  simp

/-!
Projection lemmas for the record_trade blocks.
-/

@[simp] theorem rtPeak_daily (s : RiskState) : (rtPeak s).daily_pnl = s.daily_pnl := by
  unfold rtPeak; split <;> rfl

@[simp] theorem rtPeak_reset (s : RiskState) : (rtPeak s).last_daily_reset = s.last_daily_reset := by
  unfold rtPeak; split <;> rfl

@[simp] theorem rtPeak_losses (s : RiskState) : (rtPeak s).consecutive_losses = s.consecutive_losses := by
  unfold rtPeak; split <;> rfl

@[simp] theorem rtPeak_cba (s : RiskState) : (rtPeak s).circuit_breaker_active = s.circuit_breaker_active := by
  unfold rtPeak; split <;> rfl

@[simp] theorem rtPeak_cbu (s : RiskState) : (rtPeak s).circuit_breaker_until = s.circuit_breaker_until := by
  unfold rtPeak; split <;> rfl

@[simp] theorem rtLosses_daily (L : RiskLimits) (s : RiskState) (now : Instant) (pnl : ℚ) :
    (rtLosses L s now pnl).daily_pnl = s.daily_pnl := by
  simp only [rtLosses]
  repeat' split
  all_goals rfl

@[simp] theorem rtLosses_reset (L : RiskLimits) (s : RiskState) (now : Instant) (pnl : ℚ) :
    (rtLosses L s now pnl).last_daily_reset = s.last_daily_reset := by
  simp only [rtLosses]
  repeat' split
  all_goals rfl

@[simp] theorem checkDailyReset_cba (s : RiskState) (now : Instant) :
    (checkDailyReset s now).circuit_breaker_active = s.circuit_breaker_active := by
  unfold checkDailyReset; split <;> rfl

@[simp] theorem checkDailyReset_cbu (s : RiskState) (now : Instant) :
    (checkDailyReset s now).circuit_breaker_until = s.circuit_breaker_until := by
  unfold checkDailyReset; split <;> rfl

@[simp] theorem checkDailyReset_losses (s : RiskState) (now : Instant) :
    (checkDailyReset s now).consecutive_losses = s.consecutive_losses := by
  unfold checkDailyReset; split <;> rfl

/-- The daily PnL after record_trade: the new trade's PnL is applied
first, and the whole accumulator is zeroed when the UTC date advanced. -/
theorem recordTrade_daily_pnl (L : RiskLimits) (m : RMState) (now : Instant) (pnl : ℚ) :
    (recordTrade L m now pnl).state.daily_pnl
      = if now.day > m.state.last_daily_reset.day then 0 else m.state.daily_pnl + pnl := by
  simp only [recordTrade, checkDailyReset, rtApplyPnl]
  simp only [rtLosses_reset, rtPeak_reset]
  split <;> simp [rtLosses_daily, rtPeak_daily, rtLosses_reset, rtPeak_reset]

/-- The stored daily-reset date after record_trade. -/
theorem recordTrade_last_reset (L : RiskLimits) (m : RMState) (now : Instant) (pnl : ℚ) :
    (recordTrade L m now pnl).state.last_daily_reset
      = if now.day > m.state.last_daily_reset.day then now else m.state.last_daily_reset := by
  simp only [recordTrade, checkDailyReset, rtApplyPnl]
  simp only [rtLosses_reset, rtPeak_reset]
  split <;> simp [rtLosses_daily, rtPeak_daily, rtLosses_reset, rtPeak_reset]

/-- C2 counterexample: with limits and state at their defaults, a trade
of -500 on day 0 leaves daily_pnl = -500; a trade of +100 recorded after
the UTC date has advanced to day 1 leaves daily_pnl = 0, not 100 — the
daily reset runs after the new PnL is applied and wipes it as well. -/
theorem c2_counterexample :
    (recordTrade {} (initRM 10000 ⟨0, 0⟩) ⟨0, 0⟩ (-500)).state.daily_pnl = -500 ∧
    (recordTrade {} (recordTrade {} (initRM 10000 ⟨0, 0⟩) ⟨0, 0⟩ (-500)) ⟨86400, 1⟩ 100).state.daily_pnl
      = 0 ∧
    ¬ (recordTrade {} (recordTrade {} (initRM 10000 ⟨0, 0⟩) ⟨0, 0⟩ (-500)) ⟨86400, 1⟩ 100).state.daily_pnl
      = 100 := by
  refine ⟨?_, ?_, ?_⟩ <;>
    norm_num [recordTrade, rtApplyPnl, rtPeak, rtLosses, checkDailyReset, initRM]

/-- C2 as amended: when the stored reset date matches the first trade's
day and the second trade happens on a strictly later UTC date, the
second call zeroes daily_pnl entirely (including the second trade's own
PnL) and advances the stored date, so the zeroing happens exactly once:
a third trade on the same later date contributes its PnL normally. -/
theorem c2_daily_reset (L : RiskLimits) (m : RMState) (now1 now2 : Instant)
    (pnl1 pnl2 : ℚ)
    (h1 : m.state.last_daily_reset.day = now1.day)
    (h2 : now1.day < now2.day) :
    (recordTrade L (recordTrade L m now1 pnl1) now2 pnl2).state.daily_pnl = 0 ∧
    (recordTrade L (recordTrade L m now1 pnl1) now2 pnl2).state.last_daily_reset = now2 ∧
    ∀ now3 pnl3, now3.day = now2.day →
      (recordTrade L (recordTrade L (recordTrade L m now1 pnl1) now2 pnl2) now3 pnl3).state.daily_pnl
        = pnl3 := by
  have e1 : (recordTrade L m now1 pnl1).state.last_daily_reset = m.state.last_daily_reset := by
    rw [recordTrade_last_reset, if_neg]
    omega
  have e2 : (recordTrade L (recordTrade L m now1 pnl1) now2 pnl2).state.daily_pnl = 0 := by
    rw [recordTrade_daily_pnl, e1, if_pos]
    omega
  have e3 : (recordTrade L (recordTrade L m now1 pnl1) now2 pnl2).state.last_daily_reset = now2 := by
    rw [recordTrade_last_reset, e1, if_pos]
    omega
  refine ⟨e2, e3, ?_⟩
  intro now3 pnl3 h3
  rw [recordTrade_daily_pnl, e2, e3, if_neg]
  · ring
  · omega

/-- Witness for the amended C2 at concrete inputs. -/
theorem c2_daily_reset_witness :
    (initRM 10000 ⟨0, 0⟩).state.last_daily_reset.day = (Instant.mk 0 0).day ∧
    (Instant.mk 0 0).day < (Instant.mk 86400 1).day ∧
    (recordTrade {} (recordTrade {} (initRM 10000 ⟨0, 0⟩) ⟨0, 0⟩ (-500)) ⟨86400, 1⟩ 100).state.daily_pnl = 0 ∧
    (recordTrade {} (recordTrade {} (recordTrade {} (initRM 10000 ⟨0, 0⟩) ⟨0, 0⟩ (-500)) ⟨86400, 1⟩ 100) ⟨90000, 1⟩ 7).state.daily_pnl = 7 := by
  have h := c2_daily_reset {} (initRM 10000 ⟨0, 0⟩) ⟨0, 0⟩ ⟨86400, 1⟩ (-500) 100
    (by decide) (by decide)
  exact ⟨by decide, by decide, h.1, h.2.2 ⟨90000, 1⟩ 7 (by decide)⟩

-- placeholder-end

/-- The success branch of the post-breaker checks fully determines the
resulting manager state: the given state with both rate windows
purged, and an untouched violations log. -/
theorem canTradeChecks_success {L : RiskLimits} {m : RMState} {s1 : RiskState}
    {now : Instant} {size : ℚ} {asset : Option String} {m2 : RMState}
    (h : canTradeChecks L m s1 now size asset = ((true, none), m2)) :
    m2 = { m with state := { s1 with
      orders_last_minute := cleanupMinute s1.orders_last_minute now.t
      orders_last_hour := cleanupHour s1.orders_last_hour now.t } } := by
  simp only [canTradeChecks, recordViolation] at h
  repeat' split at h
  all_goals simp only [Prod.mk.injEq] at h
  all_goals first
    | exact h.2.symm
    | exact absurd h.1.1 (by simp)

/-- A default-limits manager state whose only deviation from the
initial one is a single stale order timestamp at time 0. -/
def c3Pre : RMState :=
  { initRM 10000 ⟨0, 0⟩ with
    state := { (initRM 10000 ⟨0, 0⟩).state with orders_last_minute := [0] } }

/-- C3 counterexample: the state with one stale timestamp passes
can_trade at time 100, yet the successful call mutates the state: the
stale timestamp is purged from the minute window, so the resulting
state differs from the input state. -/
theorem c3_counterexample :
    canTrade {} c3Pre ⟨100, 0⟩ "x" 10 none
      = some ((true, none), initRM 10000 ⟨0, 0⟩) ∧
    c3Pre.state.orders_last_minute = [0] ∧
    ¬ (initRM 10000 ⟨0, 0⟩).state.orders_last_minute = c3Pre.state.orders_last_minute := by
  refine ⟨?_, rfl, by simp [initRM, c3Pre]⟩
  norm_num [canTrade, canTradeChecks, assetBlock, recordViolation, cleanupMinute,
    cleanupHour, c3Pre, initRM]

/-- C3 as amended: a can_trade call that returns (True, None) leaves the
open positions, the exposure total, every PnL and equity field, the
trade counters and the violations log untouched, but it is not free of
mutation: the two rate windows are replaced by their purged versions
(timestamps older than 60s / 3600s dropped), and a circuit breaker that
was active (necessarily expired, or the call could not have succeeded)
has been cleared. -/
theorem c3_success_frame (L : RiskLimits) (m : RMState) (now : Instant)
    (cid : String) (size : ℚ) (asset : Option String) (m2 : RMState)
    (h : canTrade L m now cid size asset = some ((true, none), m2)) :
    m2.violations = m.violations ∧
    m2.state.open_positions = m.state.open_positions ∧
    m2.state.total_exposure = m.state.total_exposure ∧
    m2.state.session_pnl = m.state.session_pnl ∧
    m2.state.daily_pnl = m.state.daily_pnl ∧
    m2.state.current_equity = m.state.current_equity ∧
    m2.state.peak_equity = m.state.peak_equity ∧
    m2.state.consecutive_losses = m.state.consecutive_losses ∧
    m2.state.total_trades = m.state.total_trades ∧
    m2.state.orders_last_minute = cleanupMinute m.state.orders_last_minute now.t ∧
    m2.state.orders_last_hour = cleanupHour m.state.orders_last_hour now.t ∧
    m2.state.circuit_breaker_active = false ∧
    (m.state.circuit_breaker_active = false →
      m2.state.circuit_breaker_until = m.state.circuit_breaker_until) := by
  unfold canTrade at h
  split at h
  · rename_i hact
    split at h
    · exact absurd h (by simp)
    · split at h
      · exact absurd h (by simp)
      · simp only [Option.some.injEq] at h
        have h2 := canTradeChecks_success h
        subst h2
        refine ⟨rfl, rfl, rfl, rfl, rfl, rfl, rfl, rfl, rfl, rfl, rfl, rfl, ?_⟩
        intro hin
        rw [hact] at hin
        exact absurd hin (by simp)
  · rename_i hact
    simp only [Option.some.injEq] at h
    have h2 := canTradeChecks_success h
    subst h2
    exact ⟨rfl, rfl, rfl, rfl, rfl, rfl, rfl, rfl, rfl, rfl, rfl,
      by simpa using hact, fun _ => rfl⟩

/-- Witness for the amended C3 at a concrete successful call. -/
theorem c3_success_frame_witness :
    canTrade {} (initRM 10000 ⟨0, 0⟩) ⟨100, 0⟩ "x" 10 none
      = some ((true, none), initRM 10000 ⟨0, 0⟩) ∧
    (initRM 10000 ⟨0, 0⟩).state.orders_last_minute
      = cleanupMinute (initRM 10000 ⟨0, 0⟩).state.orders_last_minute (100 : ℚ) := by
  have h : canTrade {} (initRM 10000 ⟨0, 0⟩) ⟨100, 0⟩ "x" 10 none
      = some ((true, none), initRM 10000 ⟨0, 0⟩) := by
    norm_num [canTrade, canTradeChecks, assetBlock, recordViolation,
      cleanupMinute, cleanupHour, initRM]
  have h2 := c3_success_frame {} (initRM 10000 ⟨0, 0⟩) ⟨100, 0⟩ "x" 10 none
    (initRM 10000 ⟨0, 0⟩) h
  exact ⟨h, (h2.2.2.2.2.2.2.2.2.2.1).symm ▸ rfl⟩

/-- The consecutive-loss counter after a losing trade. -/
theorem recordTrade_neg_losses (L : RiskLimits) (m : RMState) (now : Instant)
    (pnl : ℚ) (h : pnl < 0) :
    (recordTrade L m now pnl).state.consecutive_losses
      = m.state.consecutive_losses + 1 := by
  simp only [recordTrade, checkDailyReset_losses]
  simp only [rtLosses, rtPeak_losses, rtApplyPnl, if_pos h]
  split <;> rfl

/-- A losing trade that reaches the loss threshold with the breaker
enabled triggers the circuit breaker with a deadline 30 minutes out. -/
theorem recordTrade_trigger (L : RiskLimits) (m : RMState) (now : Instant)
    (pnl : ℚ) (h : pnl < 0) (he : L.enable_circuit_breaker = true)
    (hc : L.max_consecutive_losses ≤ m.state.consecutive_losses + 1) :
    (recordTrade L m now pnl).state.circuit_breaker_active = true ∧
    (recordTrade L m now pnl).state.circuit_breaker_until
      = some (now.addSecs (30 * 60)) := by
  simp only [recordTrade, checkDailyReset_cba, checkDailyReset_cbu]
  simp only [rtLosses, rtPeak_losses, rtApplyPnl, if_pos h]
  rw [if_pos ⟨he, hc⟩]
  exact ⟨rfl, rfl⟩

/-- A losing trade never deactivates an active breaker. -/
theorem rtLosses_active_mono (L : RiskLimits) (s : RiskState) (now : Instant)
    (pnl : ℚ) (h : s.circuit_breaker_active = true) :
    (rtLosses L s now pnl).circuit_breaker_active = true := by
  simp only [rtLosses]
  repeat' split
  all_goals simp [h]

/-- A sequence of record_trade calls applied from left to right. -/
def runTrades (L : RiskLimits) (m : RMState) (trades : List (Instant × ℚ)) : RMState :=
  trades.foldl (fun acc p => recordTrade L acc p.1 p.2) m

/-- Any run of losing trades long enough to push the counter to the
threshold leaves the breaker active with the deadline set 30 minutes
after the last trade. -/
theorem runTrades_trigger (L : RiskLimits) (he : L.enable_circuit_breaker = true) :
    ∀ (trades : List (Instant × ℚ)) (m : RMState) (lastT : Instant) (lastP : ℚ),
      (∀ p ∈ trades, p.2 < 0) →
      trades.getLast? = some (lastT, lastP) →
      L.max_consecutive_losses ≤ m.state.consecutive_losses + trades.length →
      (runTrades L m trades).state.circuit_breaker_active = true ∧
      (runTrades L m trades).state.circuit_breaker_until
        = some (lastT.addSecs (30 * 60)) := by
  intro trades
  induction trades with
  | nil => intro m lastT lastP _ hlast _; exact absurd hlast (by simp)
  | cons hd rest ih =>
    intro m lastT lastP hneg hlast hc
    obtain ⟨t, p⟩ := hd
    cases rest with
    | nil =>
      simp only [List.getLast?_singleton, Option.some.injEq, Prod.mk.injEq] at hlast
      obtain ⟨rfl, rfl⟩ := hlast
      have hp : p < 0 := hneg (t, p) (by simp)
      have := recordTrade_trigger L m t p hp he (by simpa using hc)
      simpa [runTrades] using this
    | cons q rest2 =>
      have hstep : runTrades L m ((t, p) :: q :: rest2)
          = runTrades L (recordTrade L m t p) (q :: rest2) := rfl
      have hp : p < 0 := hneg (t, p) (by simp)
      have hcount := recordTrade_neg_losses L m t p hp
      have hlast2 : (q :: rest2).getLast? = some (lastT, lastP) := by
        simpa [List.getLast?_cons_cons] using hlast
      have hneg2 : ∀ r ∈ q :: rest2, r.2 < 0 := by
        intro r hr; exact hneg r (by simp [hr])
      rw [hstep]
      apply ih (recordTrade L m t p) lastT lastP hneg2 hlast2
      rw [hcount]
      simp only [List.length_cons] at hc ⊢
      omega

/-- The violation returned by the post-breaker checks is never the
consecutive-losses kind. -/
theorem canTradeChecks_not_cl (L : RiskLimits) (m : RMState) (s1 : RiskState)
    (now : Instant) (size : ℚ) (asset : Option String) :
    (canTradeChecks L m s1 now size asset).1.2 ≠ some RiskViolation.consecutiveLosses := by
  simp only [canTradeChecks]
  repeat' split
  all_goals simp

/-- The post-breaker checks never write the breaker flag. -/
theorem canTradeChecks_cba (L : RiskLimits) (m : RMState) (s1 : RiskState)
    (now : Instant) (size : ℚ) (asset : Option String) :
    (canTradeChecks L m s1 now size asset).2.state.circuit_breaker_active
      = s1.circuit_breaker_active := by
  obtain ⟨qm, qh, hs⟩ := canTradeChecks_state L m s1 now size asset
  rw [hs]

/-- C4: with the breaker enabled, any run of at least
max_consecutive_losses losing trades activates the breaker with a
deadline 30 minutes after the last trade; while the deadline has not
passed every can_trade call, whatever its input, returns
(False, consecutive-losses) and leaves the state untouched; no
operation other than reset_circuit_breaker or a can_trade call at or
past the deadline deactivates the breaker; reset_circuit_breaker
deactivates it (clearing deadline and counter); and a can_trade call at
or past the deadline clears the breaker and does not report the
consecutive-losses violation. -/
theorem c4_circuit_breaker :
    (∀ (L : RiskLimits) (m : RMState) (trades : List (Instant × ℚ))
        (lastT : Instant) (lastP : ℚ),
      L.enable_circuit_breaker = true →
      (∀ p ∈ trades, p.2 < 0) →
      trades.getLast? = some (lastT, lastP) →
      L.max_consecutive_losses ≤ trades.length →
      (runTrades L m trades).state.circuit_breaker_active = true ∧
      (runTrades L m trades).state.circuit_breaker_until
        = some (lastT.addSecs (30 * 60))) ∧
    (∀ (L : RiskLimits) (m : RMState) (now : Instant) (cid : String) (size : ℚ)
        (asset : Option String) (d : Instant),
      m.state.circuit_breaker_active = true →
      m.state.circuit_breaker_until = some d →
      now.t < d.t →
      canTrade L m now cid size asset
        = some ((false, some RiskViolation.consecutiveLosses), m)) ∧
    (∀ (L : RiskLimits) (m : RMState) (op : RiskOp),
      m.state.circuit_breaker_active = true →
      op ≠ RiskOp.resetCircuitBreakerOp →
      (∀ now cid size asset, op = RiskOp.canTradeOp now cid size asset →
        ∀ d, m.state.circuit_breaker_until = some d → now.t < d.t) →
      (stepOp L m op).state.circuit_breaker_active = true) ∧
    (∀ m : RMState,
      (resetCircuitBreaker m).state.circuit_breaker_active = false ∧
      (resetCircuitBreaker m).state.circuit_breaker_until = none ∧
      (resetCircuitBreaker m).state.consecutive_losses = 0) ∧
    (∀ (L : RiskLimits) (m : RMState) (now : Instant) (cid : String) (size : ℚ)
        (asset : Option String) (d : Instant),
      m.state.circuit_breaker_active = true →
      m.state.circuit_breaker_until = some d →
      d.t ≤ now.t →
      ∃ res m2, canTrade L m now cid size asset = some (res, m2) ∧
        res.2 ≠ some RiskViolation.consecutiveLosses ∧
        m2.state.circuit_breaker_active = false) := by
  refine ⟨?_, ?_, ?_, ?_, ?_⟩
  · intro L m trades lastT lastP he hneg hlast hc
    apply runTrades_trigger L he trades m lastT lastP hneg hlast
    omega
  · intro L m now cid size asset d hact hu hlt
    simp only [canTrade, hact, hu, if_pos hlt]
    simp
  · intro L m op hact hne hcb
    cases op with
    | canTradeOp now cid size asset =>
      cases hu : m.state.circuit_breaker_until with
      | none =>
        simp only [stepOp, canTrade, hact, hu]
        simpa using hact
      | some d =>
        have hlt := hcb now cid size asset rfl d hu
        simp only [stepOp, canTrade, hact, hu, if_pos hlt]
        simpa using hact
    | recordOrderOp now => simpa only [stepOp, recordOrder] using hact
    | recordPositionOpenOp cid size => simpa only [stepOp, recordPositionOpen] using hact
    | recordPositionCloseOp cid =>
      simp only [stepOp, recordPositionClose]
      split
      · simpa using hact
      · exact hact
    | recordTradeOp now pnl =>
      simp only [stepOp, recordTrade, checkDailyReset_cba]
      exact rtLosses_active_mono L _ now pnl (by simpa using hact)
    | resetCircuitBreakerOp => exact absurd rfl hne
  · intro m
    exact ⟨rfl, rfl, rfl⟩
  · intro L m now cid size asset d hact hu hle
    refine ⟨(canTradeChecks L m
        { m.state with circuit_breaker_active := false, circuit_breaker_until := none }
        now size asset).1,
      (canTradeChecks L m
        { m.state with circuit_breaker_active := false, circuit_breaker_until := none }
        now size asset).2, ?_, ?_, ?_⟩
    · simp [canTrade, hact, hu, if_neg (not_lt.mpr hle)]
    · exact canTradeChecks_not_cl L m _ now size asset
    · rw [canTradeChecks_cba]
/-- Limits with a one-loss threshold, used by the C4 witness. -/
def c4L : RiskLimits := { max_consecutive_losses := 1 }

/-- A manager state with the breaker active until t = 1800. -/
def c4Act : RMState :=
  { initRM 10000 ⟨0, 0⟩ with
    state := { (initRM 10000 ⟨0, 0⟩).state with
      circuit_breaker_active := true
      circuit_breaker_until := some ⟨1800, 0⟩ } }

/-- Witness for C4 at concrete inputs: one losing trade triggers with a
threshold of one; a pre-deadline check rejects with consecutive-losses
and leaves the state untouched; record_order keeps the breaker active;
the manual reset clears flag, deadline and counter. -/
theorem c4_circuit_breaker_witness :
    (runTrades c4L (initRM 10000 ⟨0, 0⟩) [(⟨0, 0⟩, -1)]).state.circuit_breaker_active = true ∧
    (runTrades c4L (initRM 10000 ⟨0, 0⟩) [(⟨0, 0⟩, -1)]).state.circuit_breaker_until
      = some (Instant.addSecs ⟨0, 0⟩ (30 * 60)) ∧
    canTrade {} c4Act ⟨0, 0⟩ "x" 10 none
      = some ((false, some RiskViolation.consecutiveLosses), c4Act) ∧
    (stepOp {} c4Act (RiskOp.recordOrderOp 5)).state.circuit_breaker_active = true ∧
    (resetCircuitBreaker c4Act).state.circuit_breaker_active = false ∧
    (resetCircuitBreaker c4Act).state.circuit_breaker_until = none ∧
    (resetCircuitBreaker c4Act).state.consecutive_losses = 0 := by
  have h := c4_circuit_breaker
  have ha := h.1 c4L (initRM 10000 ⟨0, 0⟩) [(⟨0, 0⟩, -1)] ⟨0, 0⟩ (-1) rfl
    (by intro p hp; simp only [List.mem_singleton] at hp; subst hp; norm_num)
    rfl (by decide)
  have hb := h.2.1 {} c4Act ⟨0, 0⟩ "x" 10 none ⟨1800, 0⟩ rfl rfl (by norm_num)
  have hc := h.2.2.1 {} c4Act (RiskOp.recordOrderOp 5) rfl
    (by intro hh; cases hh)
    (by intro now cid size asset hop; cases hop)
  have hd := h.2.2.2.1 c4Act
  exact ⟨ha.1, ha.2, hb, hc, hd.1, hd.2.1, hd.2.2⟩
/-- Whether the circuit-breaker step of the spec's ordered check list
rejects: breaker active and the deadline not yet reached.  Written from
the spec's step 1; an active breaker with no stored deadline cannot
reject (that state makes the code raise instead, and is excluded by the
well-formedness hypothesis of the ordering theorem). -/
def cbBlock (s : RiskState) (now : Instant) : Bool :=
  s.circuit_breaker_active &&
    (match s.circuit_breaker_until with
     | some d => decide (now.t < d.t)
     | none => false)

/-- The first failing check among the spec's steps 2-8 (position size,
total exposure, single-market exposure, daily loss, emergency stop,
drawdown, order rate), written from the spec's ordered list as an
independent reference definition. -/
def specChecksViol (L : RiskLimits) (s : RiskState) (now : Instant)
    (size : ℚ) (asset : Option String) : Option RiskViolation :=
  if size > L.max_position_size then some RiskViolation.positionSize
  else if s.total_exposure + size > L.max_total_exposure then some RiskViolation.totalExposure
  else if assetBlock L s size asset then some RiskViolation.singleMarketExposure
  else if s.daily_pnl ≤ L.max_daily_loss then some RiskViolation.dailyLoss
  else if s.session_pnl ≤ L.emergency_stop_loss then some RiskViolation.dailyLoss
  else if s.peak_equity > 0 ∧
      (s.current_equity - s.peak_equity) / s.peak_equity < -L.max_drawdown_pct then
    some RiskViolation.maxDrawdown
  else if (cleanupMinute s.orders_last_minute now.t).length ≥ L.max_orders_per_minute
      ∨ (cleanupHour s.orders_last_hour now.t).length ≥ L.max_orders_per_hour then
    some RiskViolation.orderRate
  else none

/-- The spec's full ordered check list: the circuit breaker first, then
the seven state checks, first failing check wins. -/
def specFirstViolation (L : RiskLimits) (s : RiskState) (now : Instant)
    (size : ℚ) (asset : Option String) : Option RiskViolation :=
  if cbBlock s now then some RiskViolation.consecutiveLosses
  else specChecksViol L s now size asset

/-- The result pair of the post-breaker checks is determined by the
spec-side first-failing-check function on the same state. -/
theorem canTradeChecks_fst (L : RiskLimits) (m : RMState) (s1 : RiskState)
    (now : Instant) (size : ℚ) (asset : Option String) :
    (canTradeChecks L m s1 now size asset).1
      = ((specChecksViol L s1 now size asset).isNone,
         specChecksViol L s1 now size asset) := by
  simp only [canTradeChecks, specChecksViol]
  repeat' split
  all_goals simp_all
  all_goals omega

/-- The spec-side checks 2-8 ignore the breaker fields. -/
theorem specChecksViol_cbIrrel (L : RiskLimits) (s : RiskState) (now : Instant)
    (size : ℚ) (asset : Option String) (x : Bool) (y : Option Instant) :
    specChecksViol L { s with circuit_breaker_active := x, circuit_breaker_until := y }
        now size asset
      = specChecksViol L s now size asset := rfl

/-- C5: for every well-formed state (an active breaker stores a
deadline), can_trade returns exactly the first failing check of the
spec's ordered list - circuit breaker, position size, total exposure,
single-market exposure, daily loss, emergency stop, drawdown, order
rate - as its violation, allowed iff none fails; and whenever
size > max_position_size the call rejects regardless of all other
state, since the only check that can fire earlier is the circuit
breaker, which also rejects. -/
theorem c5_check_order (L : RiskLimits) (m : RMState) (now : Instant)
    (cid : String) (size : ℚ) (asset : Option String)
    (hwf : m.state.circuit_breaker_active = true →
      ∃ d, m.state.circuit_breaker_until = some d) :
    (∃ m2, canTrade L m now cid size asset
      = some (((specFirstViolation L m.state now size asset).isNone,
               specFirstViolation L m.state now size asset), m2)) ∧
    (size > L.max_position_size →
      (specFirstViolation L m.state now size asset).isNone = false) := by
  constructor
  · cases hact : m.state.circuit_breaker_active with
    | false =>
      refine ⟨(canTradeChecks L m m.state now size asset).2, ?_⟩
      have hfst := canTradeChecks_fst L m m.state now size asset
      simp [canTrade, hact, specFirstViolation, cbBlock, ← hfst]
    | true =>
      obtain ⟨d, hu⟩ := hwf hact
      by_cases hlt : now.t < d.t
      · refine ⟨m, ?_⟩
        simp [canTrade, hact, hu, if_pos hlt, specFirstViolation, cbBlock, hlt]
      · refine ⟨(canTradeChecks L m
          { m.state with circuit_breaker_active := false, circuit_breaker_until := none }
          now size asset).2, ?_⟩
        have hfst := canTradeChecks_fst L m
          { m.state with circuit_breaker_active := false, circuit_breaker_until := none }
          now size asset
        rw [specChecksViol_cbIrrel] at hfst
        simp [canTrade, hact, hu, if_neg hlt, specFirstViolation, cbBlock, hlt, ← hfst]
  · intro hsz
    unfold specFirstViolation specChecksViol
    repeat' split
    all_goals simp_all

/-- Witness for C5 at a concrete oversized order. -/
theorem c5_check_order_witness :
    specFirstViolation {} (initRM 10000 ⟨0, 0⟩).state ⟨0, 0⟩ 600 none
      = some RiskViolation.positionSize ∧
    canTrade {} (initRM 10000 ⟨0, 0⟩) ⟨0, 0⟩ "x" 600 none
      = some ((false, some RiskViolation.positionSize),
        { initRM 10000 ⟨0, 0⟩ with violations := [(⟨0, 0⟩, RiskViolation.positionSize)] }) ∧
    (specFirstViolation {} (initRM 10000 ⟨0, 0⟩).state ⟨0, 0⟩ 600 none).isNone = false := by
  have h := c5_check_order {} (initRM 10000 ⟨0, 0⟩) ⟨0, 0⟩ "x" 600 none
    (by intro hh; simp [initRM] at hh)
  refine ⟨?_, ?_, h.2 (by norm_num)⟩
  · norm_num [specFirstViolation, specChecksViol, cbBlock, assetBlock, initRM,
      cleanupMinute, cleanupHour]
  · norm_num [canTrade, canTradeChecks, assetBlock, recordViolation, initRM,
      cleanupMinute, cleanupHour]
/-- Limits with a two-loss threshold, used by the C9 scenarios. -/
def c9L : RiskLimits := { max_consecutive_losses := 2 }

/-- A state whose breaker is active with an expired deadline and whose
loss counter was reset to 0 by a winning trade recorded during the
lockout. -/
def c9M : RMState :=
  { initRM 10000 ⟨0, 0⟩ with
    state := { (initRM 10000 ⟨0, 0⟩).state with
      circuit_breaker_active := true
      circuit_breaker_until := some ⟨100, 0⟩ } }

/-- C9 counterexample: from a state whose breaker auto-clears on the
can_trade call (deadline 100, call at 200) but whose consecutive-loss
counter is 0, a single losing trade does not re-activate the breaker
(threshold 2), contradicting the claim's universally quantified
consequence. -/
theorem c9_counterexample :
    c9M.state.circuit_breaker_active = true ∧
    (stepOp c9L c9M (RiskOp.canTradeOp ⟨200, 0⟩ "x" 10 none)).state.circuit_breaker_active
      = false ∧
    ¬ (recordTrade c9L (stepOp c9L c9M (RiskOp.canTradeOp ⟨200, 0⟩ "x" 10 none))
        ⟨200, 0⟩ (-1)).state.circuit_breaker_active = true := by
  refine ⟨rfl, ?_, ?_⟩ <;>
    norm_num [stepOp, canTrade, canTradeChecks, assetBlock, recordViolation,
      cleanupMinute, cleanupHour, recordTrade, rtApplyPnl, rtPeak, rtLosses,
      checkDailyReset, c9L, c9M, initRM]

/-- C9 as amended: the timed clearing inside can_trade resets only the
breaker flag and deadline and leaves consecutive_losses unchanged;
reset_circuit_breaker zeroes the counter, but so does any record_trade
with non-negative PnL (which is why the claim's consequence needs the
counter hypothesis); and after an auto-clear, a single losing trade
re-activates the breaker provided the preserved counter is still one
short of the threshold or past it. -/
theorem c9_autoclear_counter :
    (∀ (L : RiskLimits) (m : RMState) (now : Instant) (cid : String) (size : ℚ)
        (asset : Option String) (d : Instant) (res : Bool × Option RiskViolation)
        (m2 : RMState),
      m.state.circuit_breaker_active = true →
      m.state.circuit_breaker_until = some d →
      d.t ≤ now.t →
      canTrade L m now cid size asset = some (res, m2) →
      m2.state.circuit_breaker_active = false ∧
      m2.state.circuit_breaker_until = none ∧
      m2.state.consecutive_losses = m.state.consecutive_losses) ∧
    (∀ m : RMState, (resetCircuitBreaker m).state.consecutive_losses = 0) ∧
    (∀ (L : RiskLimits) (m : RMState) (now : Instant) (pnl : ℚ), ¬ pnl < 0 →
      (recordTrade L m now pnl).state.consecutive_losses = 0) ∧
    (∀ (L : RiskLimits) (m : RMState) (now : Instant) (cid : String) (size : ℚ)
        (asset : Option String) (d : Instant) (res : Bool × Option RiskViolation)
        (m2 : RMState) (now2 : Instant) (pnl : ℚ),
      m.state.circuit_breaker_active = true →
      m.state.circuit_breaker_until = some d →
      d.t ≤ now.t →
      canTrade L m now cid size asset = some (res, m2) →
      pnl < 0 →
      L.enable_circuit_breaker = true →
      L.max_consecutive_losses ≤ m.state.consecutive_losses + 1 →
      (recordTrade L m2 now2 pnl).state.circuit_breaker_active = true) := by
  have frame : ∀ (L : RiskLimits) (m : RMState) (now : Instant) (cid : String)
      (size : ℚ) (asset : Option String) (d : Instant)
      (res : Bool × Option RiskViolation) (m2 : RMState),
      m.state.circuit_breaker_active = true →
      m.state.circuit_breaker_until = some d →
      d.t ≤ now.t →
      canTrade L m now cid size asset = some (res, m2) →
      m2.state.circuit_breaker_active = false ∧
      m2.state.circuit_breaker_until = none ∧
      m2.state.consecutive_losses = m.state.consecutive_losses := by
    intro L m now cid size asset d res m2 hact hu hle h
    simp only [canTrade, hact, hu, if_neg (not_lt.mpr hle), if_true, eq_self_iff_true,
      Option.some.injEq] at h
    have hm2 : m2 = (canTradeChecks L m
        { m.state with circuit_breaker_active := false, circuit_breaker_until := none }
        now size asset).2 := by
      rw [h]
    obtain ⟨qm, qh, hs⟩ := canTradeChecks_state L m
      { m.state with circuit_breaker_active := false, circuit_breaker_until := none }
      now size asset
    rw [hm2, hs]
    exact ⟨rfl, rfl, rfl⟩
  refine ⟨frame, fun m => rfl, ?_, ?_⟩
  · intro L m now pnl hpos
    simp only [recordTrade, checkDailyReset_losses]
    simp only [rtLosses, rtPeak_losses, rtApplyPnl, if_neg hpos]
  · intro L m now cid size asset d res m2 now2 pnl hact hu hle h hpnl he hc
    obtain ⟨-, -, hcount⟩ := frame L m now cid size asset d res m2 hact hu hle h
    exact (recordTrade_trigger L m2 now2 pnl hpnl he (by omega)).1

/-- A state like c9M but whose preserved loss counter is 1: one short
of the threshold 2. -/
def c9M2 : RMState :=
  { initRM 10000 ⟨0, 0⟩ with
    state := { (initRM 10000 ⟨0, 0⟩).state with
      circuit_breaker_active := true
      circuit_breaker_until := some ⟨100, 0⟩
      consecutive_losses := 1 } }

/-- The state c9M2 after its breaker auto-clears. -/
def c9M2Clr : RMState :=
  { initRM 10000 ⟨0, 0⟩ with
    state := { (initRM 10000 ⟨0, 0⟩).state with consecutive_losses := 1 } }

/-- Witness for the amended C9 at concrete inputs. -/
theorem c9_autoclear_counter_witness :
    canTrade c9L c9M2 ⟨200, 0⟩ "x" 10 none = some ((true, none), c9M2Clr) ∧
    c9M2Clr.state.circuit_breaker_active = false ∧
    c9M2Clr.state.circuit_breaker_until = none ∧
    c9M2Clr.state.consecutive_losses = c9M2.state.consecutive_losses ∧
    (resetCircuitBreaker c9M2).state.consecutive_losses = 0 ∧
    (recordTrade c9L (recordTrade c9L c9M2Clr ⟨300, 0⟩ 5) ⟨400, 0⟩ 5).state.consecutive_losses
      = 0 ∧
    (recordTrade c9L c9M2Clr ⟨200, 0⟩ (-1)).state.circuit_breaker_active = true := by
  have hct : canTrade c9L c9M2 ⟨200, 0⟩ "x" 10 none = some ((true, none), c9M2Clr) := by
    norm_num [canTrade, canTradeChecks, assetBlock, recordViolation, cleanupMinute,
      cleanupHour, c9L, c9M2, c9M2Clr, initRM]
  have h := c9_autoclear_counter
  have h1 := h.1 c9L c9M2 ⟨200, 0⟩ "x" 10 none ⟨100, 0⟩ (true, none) c9M2Clr
    rfl rfl (by norm_num) hct
  have h4 := h.2.2.2 c9L c9M2 ⟨200, 0⟩ "x" 10 none ⟨100, 0⟩ (true, none) c9M2Clr
    ⟨200, 0⟩ (-1) rfl rfl (by norm_num) hct (by norm_num) rfl (by decide)
  refine ⟨hct, h1.1, h1.2.1, h1.2.2, h.2.1 c9M2, ?_, h4⟩
  exact h.2.2.1 c9L (recordTrade c9L c9M2Clr ⟨300, 0⟩ 5) ⟨400, 0⟩ 5 (by norm_num)
/-!
Executor lemmas and claims C6-C8, C10.
-/

/-- Updating the record under a key rewrites exactly that key's value. -/
theorem lookupOrder_upd (os : List (Option String × Order)) (oid : Option String)
    (f : Order → Order) :
    lookupOrder (updOrder os oid f) oid = (lookupOrder os oid).map f := by
  induction os with
  | nil => rfl
  | cons p rest ih =>
    by_cases hp : p.1 = oid
    · simp [lookupOrder, updOrder, hp]
    · simp only [updOrder, List.map_cons] at ih ⊢
      simp [lookupOrder, hp, ih]

/-- Replacing the value under a key that is present yields it back. -/
theorem lookup_map_replace (os : List (Option String × Order)) (oid : Option String)
    (o : Order) (hany : os.any (fun p => p.1 = oid) = true) :
    lookupOrder (os.map (fun p => if p.1 = oid then (oid, o) else p)) oid = some o := by
  induction os with
  | nil => simp at hany
  | cons p rest ih =>
    simp only [List.any_cons, Bool.or_eq_true, decide_eq_true_eq] at hany
    by_cases hp : p.1 = oid
    · simp [lookupOrder, hp]
    · have hrest : rest.any (fun p => p.1 = oid) = true := by
        rcases hany with h | h
        · exact absurd h hp
        · exact h
      simp [lookupOrder, hp, ih hrest]

/-- Appending a fresh binding makes it the one found under its key. -/
theorem lookup_append_new (os : List (Option String × Order)) (oid : Option String)
    (o : Order) : lookupOrder (os ++ [(oid, o)]) oid = some o ∨
      os.any (fun p => p.1 = oid) = true := by
  induction os with
  | nil => left; simp [lookupOrder]
  | cons p rest ih =>
    by_cases hp : p.1 = oid
    · right; simp [List.any_cons, hp]
    · rcases ih with h | h
      · left; simpa [lookupOrder, hp] using h
      · right; simp [List.any_cons, h]

/-- Python dict assignment then lookup: the stored order is found. -/
theorem lookupOrder_insert (os : List (Option String × Order)) (oid : Option String)
    (o : Order) : lookupOrder (insertOrder os oid o) oid = some o := by
  unfold insertOrder
  split
  · rename_i hany
    exact lookup_map_replace os oid o hany
  · rename_i hany
    rcases lookup_append_new os oid o with h | h
    · exact h
    · exact absurd h hany

/-- C6: a place_limit_order call whose submission fails - a non-200
response or an exception before acceptance - returns a failed
FillResult carrying a non-empty error, adds no Order record, issues no
cancel, and leaves every statistics counter unchanged (only the nonce
counter, drawn before submission, advances).  Rate-limit and exposure
state live in the RiskManager, which place_limit_order never touches:
the executor state carries no such fields. -/
theorem c6_submit_failure (es : ExecState) (token_id side : String) (price size : ℚ)
    (wait_for_fill : Bool) (timeout_sec startTime submitTime : ℚ)
    (submit : SubmitOutcome) (polls : List (ℚ × PollOutcome)) (cancelOk : Bool)
    (tEnd : ℚ)
    (hfail : (∃ msg, submit = SubmitOutcome.exn msg) ∨
      (∃ code text oid, submit = SubmitOutcome.response code text oid ∧ code ≠ 200)) :
    ∀ fr es2 c, placeLimitOrder es token_id side price size wait_for_fill timeout_sec
        startTime submitTime submit polls cancelOk tEnd = (fr, es2, c) →
      fr.success = false ∧
      (∃ e, fr.error = some e ∧ e ≠ "") ∧
      fr.order_id = none ∧
      es2.orders = es.orders ∧
      es2.total_orders_placed = es.total_orders_placed ∧
      es2.total_fills = es.total_fills ∧
      es2.total_cancellations = es.total_cancellations ∧
      es2.total_slippage = es.total_slippage ∧
      c = false := by
  intro fr es2 c h
  rcases hfail with ⟨msg, rfl⟩ | ⟨code, text, oid, rfl, hcode⟩
  · simp only [placeLimitOrder, Prod.mk.injEq] at h
    obtain ⟨rfl, rfl, rfl⟩ := h
    refine ⟨rfl, ⟨"Exception placing order: " ++ msg, rfl, ?_⟩, rfl, rfl, rfl, rfl, rfl, rfl, rfl⟩
    intro hs
    have hl := congrArg String.length hs
    simp only [String.length_append] at hl
    have : ("Exception placing order: ").length ≠ 0 := by decide
    have h0 : ("" : String).length = 0 := rfl
    omega
  · simp only [placeLimitOrder] at h
    rw [if_pos hcode] at h
    simp only [Prod.mk.injEq] at h
    obtain ⟨rfl, rfl, rfl⟩ := h
    refine ⟨rfl, ⟨_, rfl, ?_⟩, rfl, rfl, rfl, rfl, rfl, rfl, rfl⟩
    intro hs
    have hl := congrArg String.length hs
    simp only [String.length_append] at hl
    have : ("Order placement failed: ").length ≠ 0 := by decide
    have h0 : ("" : String).length = 0 := rfl
    omega

/-- Witness for C6 at a concrete rejected submission. -/
theorem c6_submit_failure_witness :
    ((SubmitOutcome.response 400 "bad" none = SubmitOutcome.response 400 "bad" none) ∧
      (400 : ℕ) ≠ 200) ∧
    (placeLimitOrder {} "tok" "BUY" (52/100) 10 true 5 0 (1/10)
        (SubmitOutcome.response 400 "bad" none) [] true 5).1.success = false ∧
    (placeLimitOrder {} "tok" "BUY" (52/100) 10 true 5 0 (1/10)
        (SubmitOutcome.response 400 "bad" none) [] true 5).2.1.orders
      = ({} : ExecState).orders := by
  have h := c6_submit_failure {} "tok" "BUY" (52/100) 10 true 5 0 (1/10)
    (SubmitOutcome.response 400 "bad" none) [] true 5
    (Or.inr ⟨400, "bad", none, rfl, by decide⟩)
    (placeLimitOrder {} "tok" "BUY" (52/100) 10 true 5 0 (1/10)
        (SubmitOutcome.response 400 "bad" none) [] true 5).1
    (placeLimitOrder {} "tok" "BUY" (52/100) 10 true 5 0 (1/10)
        (SubmitOutcome.response 400 "bad" none) [] true 5).2.1
    (placeLimitOrder {} "tok" "BUY" (52/100) 10 true 5 0 (1/10)
        (SubmitOutcome.response 400 "bad" none) [] true 5).2.2 rfl
  exact ⟨⟨rfl, by decide⟩, h.1, h.2.2.2.1⟩
/-- The timeout exit reads the tracked order back (possibly marked
cancelled, which touches only its status), issues the cancel, and
builds the FillResult from the tracked fill. -/
theorem timeoutExit_spec (timeout start tEnd : ℚ) (oid : Option String)
    (cOk : Bool) (es : ExecState) (o : Order)
    (h : lookupOrder es.orders oid = some o) :
    ∃ fr es2 o2,
      timeoutExit timeout start tEnd oid cOk es = some (fr, es2, true) ∧
      lookupOrder es2.orders oid = some o2 ∧
      o2.filled_size = o.filled_size ∧
      o2.avg_fill_price = o.avg_fill_price ∧
      o2.price = o.price ∧
      fr.success = decide (o2.filled_size > 0) ∧
      fr.filled_size = o2.filled_size ∧
      fr.avg_price = pyOr o2.avg_fill_price o2.price ∧
      fr.slippage = 0 ∧
      fr.order_id = oid ∧
      fr.error = (if o2.filled_size = 0
        then some ("Timeout after " ++ toString timeout ++ "s") else none) := by
  cases cOk with
  | false =>
    refine ⟨{ success := decide (o.filled_size > 0)
              filled_size := o.filled_size
              avg_price := pyOr o.avg_fill_price o.price
              slippage := 0
              latency_ms := (tEnd - start) * 1000
              fees := 0
              order_id := oid
              error := if o.filled_size = 0
                then some ("Timeout after " ++ toString timeout ++ "s") else none },
      es, o, ?_, h, rfl, rfl, rfl, rfl, rfl, rfl, rfl, rfl, rfl⟩
    simp only [timeoutExit]
    rw [if_neg (by simp : ¬ (false = true)), h]
  | true =>
    have hup : lookupOrder (updOrder es.orders oid (fun q => { q with status := "cancelled" })) oid
        = some { o with status := "cancelled" } := by
      rw [lookupOrder_upd, h]
      rfl
    refine ⟨{ success := decide (o.filled_size > 0)
              filled_size := o.filled_size
              avg_price := pyOr o.avg_fill_price o.price
              slippage := 0
              latency_ms := (tEnd - start) * 1000
              fees := 0
              order_id := oid
              error := if o.filled_size = 0
                then some ("Timeout after " ++ toString timeout ++ "s") else none },
      { es with
        orders := updOrder es.orders oid (fun q => { q with status := "cancelled" })
        total_cancellations := es.total_cancellations + 1 },
      { o with status := "cancelled" },
      ?_, hup, rfl, rfl, rfl, rfl, rfl, rfl, rfl, rfl, rfl⟩
    simp only [timeoutExit, if_true]
    rw [hup]

/-- The main timeout lemma for the fill wait: when no in-budget poll
reports status filled, the loop reaches the timeout exit; the cancel is
issued, the tracked fill is the last in-budget size_matched, the average
fill price was never written, and the FillResult reports partial-fill
success with slippage 0 and a timeout error exactly when nothing
filled. -/
theorem wff_no_fill (timeout start : ℚ) (oid : Option String) (cOk : Bool) :
    ∀ (polls : List (ℚ × PollOutcome)) (tEnd : ℚ) (es : ExecState) (o : Order),
      lookupOrder es.orders oid = some o →
      (∀ tp ∈ polls, tp.1 - start < timeout → isFilledOk tp.2 = false) →
      ∃ fr es2 o2,
        waitForFill timeout start oid cOk tEnd es polls = some (fr, es2, true) ∧
        lookupOrder es2.orders oid = some o2 ∧
        o2.filled_size = lastMatched timeout start polls o.filled_size ∧
        o2.avg_fill_price = o.avg_fill_price ∧
        o2.price = o.price ∧
        fr.success = decide (o2.filled_size > 0) ∧
        fr.filled_size = o2.filled_size ∧
        fr.avg_price = pyOr o2.avg_fill_price o2.price ∧
        fr.slippage = 0 ∧
        fr.order_id = oid ∧
        fr.error = (if o2.filled_size = 0
          then some ("Timeout after " ++ toString timeout ++ "s") else none) := by
  intro polls
  induction polls with
  | nil =>
    intro tEnd es o h _
    simp only [waitForFill, lastMatched]
    exact timeoutExit_spec timeout start tEnd oid cOk es o h
  | cons hd rest ih =>
    intro tEnd es o h hpolls
    obtain ⟨t, p⟩ := hd
    have hrest : ∀ tp ∈ rest, tp.1 - start < timeout → isFilledOk tp.2 = false :=
      fun tp htp hti => hpolls tp (List.mem_cons_of_mem _ htp) hti
    by_cases ht : t - start < timeout
    · cases p with
      | httpError code =>
        have hres := ih tEnd es o h hrest
        simpa only [waitForFill, if_pos ht, lastMatched] using hres
      | exn msg =>
        have hres := ih tEnd es o h hrest
        simpa only [waitForFill, if_pos ht, lastMatched] using hres
      | ok st sz avg =>
        have hnf : isFilledOk (PollOutcome.ok st sz avg) = false :=
          hpolls (t, PollOutcome.ok st sz avg) (List.mem_cons_self _ _) ht
        have hst : ¬ st = "filled" := by
          simpa [isFilledOk] using hnf
        have hup : lookupOrder
            (updOrder es.orders oid (fun q => { q with filled_size := sz, status := st })) oid
            = some { o with filled_size := sz, status := st } := by
          rw [lookupOrder_upd, h]
          rfl
        have hres := ih tEnd
          { es with orders := updOrder es.orders oid (fun q => { q with filled_size := sz, status := st }) }
          { o with filled_size := sz, status := st }
          hup hrest
        simp only [waitForFill, if_pos ht, h, if_neg hst, lastMatched]
        simpa using hres
    · simp only [waitForFill, if_neg ht, lastMatched]
      have hres := timeoutExit_spec timeout start t oid cOk es o h
      simpa only [if_neg ht] using hres

/-- No in-budget poll can push the tracked fill negative when the venue
reports nonnegative matched sizes. -/
theorem lastMatched_nonneg (timeout start : ℚ) :
    ∀ (polls : List (ℚ × PollOutcome)) (acc : ℚ),
      0 ≤ acc →
      (∀ tp ∈ polls, ∀ st sz avg, tp.2 = PollOutcome.ok st sz avg → 0 ≤ sz) →
      0 ≤ lastMatched timeout start polls acc := by
  intro polls
  induction polls with
  | nil =>
    intro acc hacc _
    simpa [lastMatched] using hacc
  | cons hd rest ih =>
    intro acc hacc hnn
    obtain ⟨t, p⟩ := hd
    have hrest : ∀ tp ∈ rest, ∀ st sz avg, tp.2 = PollOutcome.ok st sz avg → 0 ≤ sz :=
      fun tp htp => hnn tp (List.mem_cons_of_mem _ htp)
    by_cases ht : t - start < timeout
    · cases p with
      | ok st sz avg =>
        have hsz : 0 ≤ sz := hnn (t, PollOutcome.ok st sz avg)
          (List.mem_cons_self _ _) st sz avg rfl
        simpa [lastMatched, if_pos ht] using ih sz hsz hrest
      | httpError code =>
        simpa [lastMatched, if_pos ht] using ih acc hacc hrest
      | exn msg =>
        simpa [lastMatched, if_pos ht] using ih acc hacc hrest
    · simpa [lastMatched, if_neg ht] using hacc

/-- C7: a place_limit_order call with wait_for_fill = true whose order
is accepted but never reported filled within the timeout issues a
cancel, returns success exactly when some size filled before the
timeout (the last in-budget size_matched, assuming the venue reports
nonnegative matched sizes), and otherwise fails with a timeout error
message. -/
theorem c7_timeout_cancel (es : ExecState) (token_id side : String) (price size : ℚ)
    (timeout_sec startTime submitTime tEnd : ℚ) (oid : Option String) (text : String)
    (polls : List (ℚ × PollOutcome)) (cancelOk : Bool)
    (hpolls : ∀ tp ∈ polls, tp.1 - startTime < timeout_sec → isFilledOk tp.2 = false)
    (hnn : ∀ tp ∈ polls, ∀ st sz avg, tp.2 = PollOutcome.ok st sz avg → 0 ≤ sz) :
    ∀ fr es2 c, placeLimitOrder es token_id side price size true timeout_sec
        startTime submitTime (SubmitOutcome.response 200 text oid) polls cancelOk tEnd
        = (fr, es2, c) →
      c = true ∧
      fr.success = decide (fr.filled_size > 0) ∧
      fr.filled_size = lastMatched timeout_sec startTime polls 0 ∧
      (fr.filled_size = 0 → fr.success = false ∧
        fr.error = some ("Timeout after " ++ toString timeout_sec ++ "s")) ∧
      (¬ fr.filled_size = 0 → fr.success = true ∧ fr.error = none) := by
  intro fr es2 c h
  obtain ⟨fr2, esx, o2, heq, hlook, hfil, havg, hpr, hsucc, hfs, hap, hsl, hoid, herr⟩ :=
    wff_no_fill timeout_sec startTime oid cancelOk polls tEnd
      { es with
        nonce_counter := es.nonce_counter + 1
        orders := insertOrder es.orders oid
          { order_id := oid
            token_id := token_id
            side := side
            price := price
            size := size
            status := "open"
            filled_size := 0
            avg_fill_price := none
            created_at := submitTime
            filled_at := none }
        total_orders_placed := es.total_orders_placed + 1 }
      { order_id := oid
        token_id := token_id
        side := side
        price := price
        size := size
        status := "open"
        filled_size := 0
        avg_fill_price := none
        created_at := submitTime
        filled_at := none }
      (lookupOrder_insert _ oid _) hpolls
  simp only [placeLimitOrder, if_true, eq_self_iff_true] at h
  rw [if_neg (by simp : ¬ (200 : ℕ) ≠ 200), heq] at h
  simp only [Prod.mk.injEq] at h
  obtain ⟨rfl, rfl, rfl⟩ := h
  have h0 : (0 : ℚ) ≤ o2.filled_size := by
    rw [hfil]
    exact lastMatched_nonneg timeout_sec startTime polls _ (by norm_num) hnn
  refine ⟨rfl, ?_, ?_, ?_, ?_⟩
  · rw [hsucc, hfs]
  · rw [hfs, hfil]
  · intro hz
    rw [hfs] at hz
    refine ⟨?_, ?_⟩
    · rw [hsucc, hz]
      simp
    · rw [herr, if_pos hz]
  · intro hz
    rw [hfs] at hz
    have hpos : o2.filled_size > 0 := lt_of_le_of_ne h0 (Ne.symm hz)
    refine ⟨?_, ?_⟩
    · rw [hsucc]
      simp [hpos]
    · rw [herr, if_neg hz]

/-- A concrete timed-out call: one in-budget partial fill of 3, then a
poll past the 5-second budget. -/
def c7X : FillResult × ExecState × Bool :=
  placeLimitOrder {} "tok" "BUY" (52/100) 10 true 5 0 (1/10)
    (SubmitOutcome.response 200 "" (some "oid1"))
    [(1/5, PollOutcome.ok "open" 3 none), (6, PollOutcome.ok "filled" 10 (some (53/100)))]
    true 6

/-- Witness for C7: the concrete run cancels, keeps the partial fill of
3 and reports success with no error. -/
theorem c7_timeout_cancel_witness :
    c7X.2.2 = true ∧
    c7X.1.filled_size = 3 ∧
    c7X.1.success = true ∧
    c7X.1.error = none := by
  have hpolls : ∀ tp ∈ [((1 : ℚ)/5, PollOutcome.ok "open" 3 none),
      ((6 : ℚ), PollOutcome.ok "filled" 10 (some (53/100)))],
      tp.1 - (0 : ℚ) < 5 → isFilledOk tp.2 = false := by
    intro tp htp hti
    simp only [List.mem_cons, List.not_mem_nil, or_false] at htp
    rcases htp with rfl | rfl
    · rfl
    · norm_num at hti
  have hnn : ∀ tp ∈ [((1 : ℚ)/5, PollOutcome.ok "open" 3 none),
      ((6 : ℚ), PollOutcome.ok "filled" 10 (some (53/100)))],
      ∀ st sz avg, tp.2 = PollOutcome.ok st sz avg → (0 : ℚ) ≤ sz := by
    intro tp htp st sz avg hok
    simp only [List.mem_cons, List.not_mem_nil, or_false] at htp
    rcases htp with rfl | rfl <;>
      (simp only [PollOutcome.ok.injEq] at hok; obtain ⟨-, rfl, -⟩ := hok; norm_num)
  have hth := c7_timeout_cancel {} "tok" "BUY" (52/100) 10 5 0 (1/10) 6 (some "oid1") ""
    [(1/5, PollOutcome.ok "open" 3 none), (6, PollOutcome.ok "filled" 10 (some (53/100)))]
    true hpolls hnn c7X.1 c7X.2.1 c7X.2.2 rfl
  have hlm : lastMatched 5 0
      [((1 : ℚ)/5, PollOutcome.ok "open" 3 none),
       ((6 : ℚ), PollOutcome.ok "filled" 10 (some (53/100)))] 0 = 3 := by
    norm_num [lastMatched]
  have hfs : c7X.1.filled_size = 3 := by
    rw [hth.2.2.1, hlm]
  have hnz := hth.2.2.2.2 (by rw [hfs]; norm_num)
  exact ⟨hth.1, hfs, hnz.1, hnz.2⟩

/-- C10: on the timeout path of place_limit_order the returned
FillResult always has slippage 0 - even when a partial fill happened,
and whatever average price the venue reported on the partial polls
(those are never read) - and its avg_price falls back to the order
limit price, the average fill price never having been written. -/
theorem c10_timeout_slippage (es : ExecState) (token_id side : String) (price size : ℚ)
    (timeout_sec startTime submitTime tEnd : ℚ) (oid : Option String) (text : String)
    (polls : List (ℚ × PollOutcome)) (cancelOk : Bool)
    (hpolls : ∀ tp ∈ polls, tp.1 - startTime < timeout_sec → isFilledOk tp.2 = false) :
    ∀ fr es2 c, placeLimitOrder es token_id side price size true timeout_sec
        startTime submitTime (SubmitOutcome.response 200 text oid) polls cancelOk tEnd
        = (fr, es2, c) →
      fr.slippage = 0 ∧ fr.avg_price = price := by
  intro fr es2 c h
  obtain ⟨fr2, esx, o2, heq, hlook, hfil, havg, hpr, hsucc, hfs, hap, hsl, hoid, herr⟩ :=
    wff_no_fill timeout_sec startTime oid cancelOk polls tEnd
      { es with
        nonce_counter := es.nonce_counter + 1
        orders := insertOrder es.orders oid
          { order_id := oid
            token_id := token_id
            side := side
            price := price
            size := size
            status := "open"
            filled_size := 0
            avg_fill_price := none
            created_at := submitTime
            filled_at := none }
        total_orders_placed := es.total_orders_placed + 1 }
      { order_id := oid
        token_id := token_id
        side := side
        price := price
        size := size
        status := "open"
        filled_size := 0
        avg_fill_price := none
        created_at := submitTime
        filled_at := none }
      (lookupOrder_insert _ oid _) hpolls
  simp only [placeLimitOrder, if_true, eq_self_iff_true] at h
  rw [if_neg (by simp : ¬ (200 : ℕ) ≠ 200), heq] at h
  simp only [Prod.mk.injEq] at h
  obtain ⟨rfl, rfl, rfl⟩ := h
  refine ⟨hsl, ?_⟩
  rw [hap, havg, hpr]
  rfl

/-- A concrete timed-out call with an in-budget partial fill of 3 whose
poll reports an average price of 9/10, far from the 52/100 limit. -/
def c10X : FillResult × ExecState × Bool :=
  placeLimitOrder {} "tok" "BUY" (52/100) 10 true 5 0 (1/10)
    (SubmitOutcome.response 200 "" (some "oid1"))
    [(1/5, PollOutcome.ok "open" 3 (some (9/10)))] true 6

/-- Witness for C10: despite the partial fill at a reported 9/10, the
timeout FillResult has slippage 0 and avg_price equal to the limit. -/
theorem c10_timeout_slippage_witness :
    c10X.1.slippage = 0 ∧
    c10X.1.avg_price = 52/100 ∧
    c10X.1.filled_size = 3 := by
  have hpolls : ∀ tp ∈ [((1 : ℚ)/5, PollOutcome.ok "open" 3 (some (9/10)))],
      tp.1 - (0 : ℚ) < 5 → isFilledOk tp.2 = false := by
    intro tp htp hti
    simp only [List.mem_singleton] at htp
    subst htp
    rfl
  have hth := c10_timeout_slippage {} "tok" "BUY" (52/100) 10 5 0 (1/10) 6 (some "oid1") ""
    [(1/5, PollOutcome.ok "open" 3 (some (9/10)))] true hpolls
    c10X.1 c10X.2.1 c10X.2.2 rfl
  refine ⟨hth.1, hth.2, ?_⟩
  have hs : ¬ ("open" : String) = "filled" := by decide
  norm_num [c10X, placeLimitOrder, waitForFill, timeoutExit, insertOrder, updOrder,
    lookupOrder, pyOr, hs]
/-- One in-budget poll reporting status filled finalizes the wait: the
FillResult carries the reported matched size, the reported average
price, and slippage average minus the tracked limit price. -/
theorem wff_filled_step (timeout start : ℚ) (oid : Option String) (cOk : Bool)
    (tEnd : ℚ) (es : ExecState) (o : Order) (t2 sz ap : ℚ)
    (rest : List (ℚ × PollOutcome))
    (h : lookupOrder es.orders oid = some o) (ht : t2 - start < timeout) :
    ∃ es3, waitForFill timeout start oid cOk tEnd es
        ((t2, PollOutcome.ok "filled" sz (some ap)) :: rest)
      = some ({ success := true
                filled_size := sz
                avg_price := ap
                slippage := ap - o.price
                latency_ms := (t2 - start) * 1000
                fees := 0
                order_id := oid
                error := none }, es3, false) := by
  refine ⟨{ es with
      orders := (updOrder
        (updOrder es.orders oid (fun q => { q with filled_size := sz, status := "filled" }))
        oid (fun q => { q with avg_fill_price := some ap, filled_at := some t2 }))
      total_fills := es.total_fills + 1
      total_slippage := es.total_slippage + |ap - o.price| }, ?_⟩
  simp only [waitForFill, if_pos ht]
  rw [h]
  simp only [eq_self_iff_true, if_true]

/-- A non-filled in-budget poll only advances the loop, updating the
tracked fill and status and leaving price and average untouched. -/
theorem wff_skip_step (timeout start : ℚ) (oid : Option String) (cOk : Bool)
    (tEnd : ℚ) (es : ExecState) (o : Order) (t1 : ℚ) (p1 : PollOutcome)
    (rest : List (ℚ × PollOutcome))
    (h : lookupOrder es.orders oid = some o) (ht : t1 - start < timeout)
    (hp1 : isFilledOk p1 = false) :
    ∃ es2 o2, waitForFill timeout start oid cOk tEnd es ((t1, p1) :: rest)
        = waitForFill timeout start oid cOk tEnd es2 rest ∧
      lookupOrder es2.orders oid = some o2 ∧
      o2.price = o.price ∧
      o2.avg_fill_price = o.avg_fill_price := by
  cases p1 with
  | httpError code =>
    exact ⟨es, o, by simp only [waitForFill, if_pos ht], h, rfl, rfl⟩
  | exn msg =>
    exact ⟨es, o, by simp only [waitForFill, if_pos ht], h, rfl, rfl⟩
  | ok st sz avg =>
    have hst : ¬ st = "filled" := by simpa [isFilledOk] using hp1
    refine ⟨{ es with orders := (updOrder es.orders oid
        (fun q => { q with filled_size := sz, status := st })) },
      { o with filled_size := sz, status := st }, ?_, ?_, rfl, rfl⟩
    · simp only [waitForFill, if_pos ht]
      rw [h]
      simp [hst]
    · rw [lookupOrder_upd, h]
      rfl

/-- C8: a place_limit_order call with wait_for_fill = true whose order
is accepted and reported filled on the second in-budget poll (the first
in-budget poll reporting anything but filled) returns success with
filled_size equal to the reported matched size - the requested size for
a venue that fills fully - avg_price the reported average, and slippage
equal to that average minus the limit price. -/
theorem c8_filled_after_two_polls (es : ExecState) (token_id side : String)
    (price size : ℚ) (timeout_sec startTime submitTime tEnd : ℚ)
    (oid : Option String) (text : String) (t1 t2 : ℚ) (p1 : PollOutcome) (ap : ℚ)
    (rest : List (ℚ × PollOutcome)) (cancelOk : Bool)
    (h1 : t1 - startTime < timeout_sec) (h2 : t2 - startTime < timeout_sec)
    (hp1 : isFilledOk p1 = false) :
    ∀ fr es2 c, placeLimitOrder es token_id side price size true timeout_sec
        startTime submitTime (SubmitOutcome.response 200 text oid)
        ((t1, p1) :: (t2, PollOutcome.ok "filled" size (some ap)) :: rest) cancelOk tEnd
        = (fr, es2, c) →
      fr.success = true ∧
      fr.filled_size = size ∧
      fr.avg_price = ap ∧
      fr.slippage = ap - price ∧
      fr.order_id = oid ∧
      fr.error = none ∧
      c = false := by
  intro fr es2 c h
  obtain ⟨esk, o2, hskip, hlook2, hpr2, havg2⟩ :=
    wff_skip_step timeout_sec startTime oid cancelOk tEnd
      { es with
        nonce_counter := es.nonce_counter + 1
        orders := insertOrder es.orders oid
          { order_id := oid
            token_id := token_id
            side := side
            price := price
            size := size
            status := "open"
            filled_size := 0
            avg_fill_price := none
            created_at := submitTime
            filled_at := none }
        total_orders_placed := es.total_orders_placed + 1 }
      { order_id := oid
        token_id := token_id
        side := side
        price := price
        size := size
        status := "open"
        filled_size := 0
        avg_fill_price := none
        created_at := submitTime
        filled_at := none }
      t1 p1 ((t2, PollOutcome.ok "filled" size (some ap)) :: rest)
      (lookupOrder_insert _ oid _) h1 hp1
  obtain ⟨es3, heq⟩ := wff_filled_step timeout_sec startTime oid cancelOk tEnd
    esk o2 t2 size ap rest hlook2 h2
  simp only [placeLimitOrder, if_true, eq_self_iff_true] at h
  rw [if_neg (by simp : ¬ (200 : ℕ) ≠ 200), hskip, heq] at h
  simp only [Prod.mk.injEq] at h
  obtain ⟨rfl, rfl, rfl⟩ := h
  refine ⟨rfl, rfl, rfl, ?_, rfl, rfl, rfl⟩
  dsimp only
  rw [hpr2]

/-- A concrete accepted order filled on the second poll. -/
def c8X : FillResult × ExecState × Bool :=
  placeLimitOrder {} "tok" "BUY" (52/100) 10 true 5 0 (1/10)
    (SubmitOutcome.response 200 "" (some "oid1"))
    [(1/5, PollOutcome.ok "open" 0 none), (2/5, PollOutcome.ok "filled" 10 (some (53/100)))]
    true 5

/-- Witness for C8: the concrete two-poll fill succeeds with the full
size and slippage 53/100 - 52/100. -/
theorem c8_filled_after_two_polls_witness :
    c8X.1.success = true ∧
    c8X.1.filled_size = 10 ∧
    c8X.1.avg_price = 53/100 ∧
    c8X.1.slippage = 53/100 - 52/100 ∧
    c8X.2.2 = false := by
  have hth := c8_filled_after_two_polls {} "tok" "BUY" (52/100) 10 5 0 (1/10) 5
    (some "oid1") "" (1/5) (2/5) (PollOutcome.ok "open" 0 none) (53/100) [] true
    (by norm_num) (by norm_num) (by decide) c8X.1 c8X.2.1 c8X.2.2 rfl
  exact ⟨hth.1, hth.2.1, hth.2.2.1, hth.2.2.2.1, hth.2.2.2.2.2.2⟩
end CrossMarket
